import Mathlib

/-!
Verification development for the request-dispatch engine of an Express-style
web framework.  The JavaScript sources embedded here are
src/lib/application.js, src/lib/express.js and src/lib/request.js; the
Router, Layer and Route implementations are not part of the sources, so the
dispatch loop and the registration surface of the Router are modelled from
the design specification (sections 4.1 to 4.5 and 6), and every such
definition is marked with a doc comment starting with the words
Modelled from the spec.

Conventions of the shallow embedding:
  JavaScript values that the embedded fragments inspect are represented by
  the inductive JVal; property bags with a prototype link are represented by
  JBag with an own list and a proto list; an absent property reads as
  JVal.undefined, mirroring property access on a JavaScript object.
-/

/-! ## JavaScript value scaffolding -/

/-- A JavaScript value as far as the embedded code inspects one:
undefined, null, a string, or a number. -/
inductive JVal where
  | undefined
  | null
  | str (s : String)
  | num (n : Int)
deriving DecidableEq, Repr

/-- JavaScript truthiness of a JVal: undefined and null are falsy, a string
is falsy exactly when empty, a number exactly when zero. -/
def jTruthy : JVal → Bool
  | .undefined => false
  | .null => false
  | .str s => !s.isEmpty
  | .num n => n != 0

/-- The test null != x of the source (loose inequality): false exactly on
null and undefined. -/
def nonNullish : JVal → Bool
  | .undefined => false
  | .null => false
  | _ => true

/-- A thrown JavaScript error, as far as the embedded code distinguishes
them. -/
inductive JsError where
  | typeError (msg : String)
deriving DecidableEq, Repr

/-- Lower-case a string character by character, as String.prototype.toLowerCase
does on the ASCII names the embedded code handles. -/
def lowerStr (s : String) : String := String.mk (s.toList.map Char.toLower)

/-! ## Request header lookup: req.get / req.header (src/lib/request.js 56-74) -/

/-- Lookup in the lowercased header bag of a request; absent keys read as
undefined, here None. -/
def headersLookup (hs : List (String × String)) (k : String) : Option String :=
  (hs.find? (fun p => p.1 == k)).map (fun p => p.2)

/-- The JavaScript expression a || b on two possibly-undefined strings: the
left operand when truthy (a non-empty string), otherwise the right one. -/
def jsOrStr (a b : Option String) : Option String :=
  match a with
  | some v => if !v.isEmpty then some v else b
  | none => b

/-- The source line return this.headers.referrer || this.header.referer reads
the property named referer off this.header, which is the header function
itself, not the header bag; a function has no such property, so the read
yields undefined.  This constant models that value. -/
def headerFnRefererProp : Option String := none

/-- Embedding of req.get, also aliased req.header (src/lib/request.js lines
56-74).  headers is the lowercased header bag of the request; the result is
the returned header value (None models undefined) or a thrown TypeError. -/
def reqGet (headers : List (String × String)) (name : JVal) :
    Except JsError (Option String) :=
  if !(jTruthy name) then
    .error (.typeError "name argument is required to req.get")
  else
    match name with
    | .str s =>
      let lc := lowerStr s
      if lc == "referer" || lc == "referrer" then
        .ok (jsOrStr (headersLookup headers "referrer") headerFnRefererProp)
      else
        .ok (headersLookup headers lc)
    | _ => .error (.typeError "name must be a string to req.get")

/-! ## Parameter lookup: req.param (src/lib/request.js 173-188) -/

/-- A JavaScript property bag with its prototype chain: own properties first,
then inherited ones. -/
structure JBag where
  own : List (String × JVal)
  proto : List (String × JVal)
deriving DecidableEq, Repr

/-- Property read on a bag: own properties shadow inherited ones; an absent
key reads as undefined. -/
def JBag.get (b : JBag) (k : String) : JVal :=
  match (b.own.find? (fun p => p.1 == k)).map (fun p => p.2) with
  | some v => v
  | none =>
    match (b.proto.find? (fun p => p.1 == k)).map (fun p => p.2) with
    | some v => v
    | none => .undefined

/-- Object.prototype.hasOwnProperty on a bag: only the own list counts. -/
def JBag.hasOwnProp (b : JBag) (k : String) : Bool :=
  (b.own.find? (fun p => p.1 == k)).isSome

/-- The empty object the source substitutes for a missing bag. -/
def emptyBag : JBag := ⟨[], []⟩

/-- The three source bags of req.param; None models a request on which the
field was never set (this.params undefined, and likewise body and query). -/
structure ReqBags where
  params : Option JBag
  body : Option JBag
  query : Option JBag
deriving DecidableEq, Repr

/-- Embedding of req.param (src/lib/request.js lines 173-188): params wins
when the key is an own, non-nullish property; then body, then query, each
when non-nullish; else the supplied default. -/
def reqParam (r : ReqBags) (name : String) (defaultValue : JVal) : JVal :=
  let params := r.params.getD emptyBag
  let body := r.body.getD emptyBag
  let query := r.query.getD emptyBag
  if nonNullish (params.get name) && params.hasOwnProp name then params.get name
  else if nonNullish (body.get name) then body.get name
  else if nonNullish (query.get name) then query.get name
  else defaultValue

/-- The lookup rule in the words of the claim: walk the sources in the fixed
order params, body, query, taking the first usable value, where a params
value is usable when it is an own property and non-nullish and a body or
query value is usable when non-nullish; fall back to the default, and read a
missing bag as empty. -/
def reqParamClaimed (r : ReqBags) (name : String) (defaultValue : JVal) : JVal :=
  let usable : JBag → Bool → Option JVal := fun b needOwn =>
    if nonNullish (b.get name) && (!needOwn || b.hasOwnProp name) then
      some (b.get name)
    else
      none
  let candidates : List (Option JVal) :=
    [usable (r.params.getD emptyBag) true,
     usable (r.body.getD emptyBag) false,
     usable (r.query.getD emptyBag) false]
  ((candidates.filterMap id).head?).getD defaultValue

/-! ## Dispatch-level model

The Router implementation itself is not among the sources; the dispatch loop
below is modelled from the specification (section 4.4), while app.handle and
the mounted_app adapter are embedded from src/lib/application.js.  Request
and response are tracked only through the fields dispatch observes: the
prototype each currently carries, identified by the id of the owning
application. -/

/-- The request/response context a dispatch carries: the id of the
application whose request object is currently the prototype of req, and
likewise for res. -/
structure RS where
  reqProto : Nat
  resProto : Nat
deriving DecidableEq, Repr

/-- Reading req.app resolves through the prototype chain of the request to
the app property installed on the owning application's request object
(src/lib/express.js lines 38-40), so it names the application identified by
the current request prototype. -/
def reqApp (s : RS) : Nat := s.reqProto

/-- What a plain handler does with its continuation: call next with no
argument, call next with an error, or finish the response and call nothing. -/
inductive MwAction where
  | next
  | nextErr (e : String)
  | finish
deriving DecidableEq, Repr

/-- How one dispatch run ends: the stack is exhausted and the done callback
receives the pending error (None models calling it with no argument), or a
handler finished the response and the callback is never invoked. -/
inductive Exit where
  | exhausted (err : Option String)
  | finished
deriving DecidableEq, Repr

/-- A Layer pattern: a literal path-prefix string, or a pattern built from a
non-string registration argument, which the modelled string fragment of the
matcher never matches. -/
inductive DPat where
  | lit (s : String)
  | never
deriving DecidableEq, Repr

/-- Modelled from the spec: Layer path-prefix matching (section 4.1 with
end=false) for literal patterns, the only pattern form the claims exercise.
The root pattern consumes nothing; otherwise the pattern must equal the
whole path or be a segment-aligned proper prefix of it (the next character a
slash), compared case-folded unless caseSensitive; the remainder keeps the
original spelling.  The strict flag governs trailing-slash significance of
end=true patterns and is irrelevant to these prefix Layers. -/
def pMatch (cs : Bool) (pat : DPat) (path : String) : Option String :=
  match pat with
  | .never => none
  | .lit p =>
    if p == "/" then some path
    else
      let pc := (if cs then p else lowerStr p).toList
      let xc := (if cs then path else lowerStr path).toList
      if xc == pc then some ""
      else if pc.isPrefixOf xc && (path.toList.drop pc.length).head? == some '/' then
        some (String.mk (path.toList.drop pc.length))
      else none

mutual
/-- A handler held by a Layer: plain middleware, error middleware
(distinguished by declared shape, spec section 6), or the mounted_app
wrapper around a sub-application (src/lib/application.js lines 227-234).
Middleware is a function from the request context to an updated context and
the action it takes on its continuation; the id tags the handler in the
invocation log. -/
inductive Handler where
  | mw (id : Nat) (f : RS → RS × MwAction)
  | errMw (id : Nat) (f : String → RS → RS × MwAction)
  | mountApp (a : DApp)

/-- One entry of a Router stack: a path pattern and a handler. -/
inductive DLayer where
  | mk (pat : DPat) (h : Handler)

/-- The ordered Layer stack of a Router. -/
inductive DLayers where
  | nil
  | cons (l : DLayer) (ls : DLayers)

/-- A Router: its matching options and its Layer stack. -/
inductive DRouter where
  | mk (caseSensitive : Bool) (strict : Bool) (stack : DLayers)

/-- An application as dispatch sees it: its id and its lazily created
router, None while no route or middleware was ever registered. -/
inductive DApp where
  | mk (id : Nat) (router : Option DRouter)
end

/-- The router field of an application. -/
def DApp.routerOf : DApp → Option DRouter
  | .mk _ r => r

/-- The id of an application. -/
def DApp.appId : DApp → Nat
  | .mk i _ => i

/-- Append of layer stacks. -/
def DLayers.append : DLayers → DLayers → DLayers
  | .nil, ys => ys
  | .cons x xs, ys => .cons x (DLayers.append xs ys)

/-- The arguments the done callback was invoked with during one run: by
construction of Exit this list is empty or a singleton, making the
exactly-once guarantee of the terminal handler visible. -/
def doneCalls : Exit → List (Option String)
  | .exhausted e => [e]
  | .finished => []

/-- Prefix a log of already-invoked handler ids onto a dispatch result. -/
def seqLog (l : List Nat) (r : RS × List Nat × Exit) : RS × List Nat × Exit :=
  (r.1, l ++ r.2.1, r.2.2)

/-- The prototype restoration the mounted_app continuation performs before
invoking the parent next (src/lib/application.js lines 230-231): both
prototypes are reset to the request and response objects of the application
recorded from req.app on entry. -/
def restoreCtx (s : RS) (orig : Nat) : RS :=
  { s with reqProto := orig, resProto := orig }

mutual
/-- Modelled from the spec: the Router dispatch loop of section 4.4 over the
Layer stack, carrying the remainder path, the pending error and the request
context, with the mounted_app adapter semantics of src/lib/application.js
lines 227-234 in the mountApp case: record orig from req.app, run the child
with the remainder path, and on child exhaustion restore both prototypes to
orig and invoke the outer next with the error the child passed.  With an
error pending, only error-shaped handlers run (the three-argument mounted_app
wrapper and plain middleware are skipped); with none pending, error handlers
are skipped.  The result is the final context, the log of invoked handler
ids, and how the run ended. -/
def dispatch (cs : Bool) (ls : DLayers) (path : String) (err : Option String)
    (s : RS) : RS × List Nat × Exit :=
  match ls with
  | .nil => (s, [], .exhausted err)
  | .cons (.mk pat h) rest =>
    match pMatch cs pat path with
    | none => dispatch cs rest path err s
    | some rem =>
      match err, h with
      | none, .mw id f =>
        match f s with
        | (s', .next) => seqLog [id] (dispatch cs rest path none s')
        | (s', .nextErr e) => seqLog [id] (dispatch cs rest path (some e) s')
        | (s', .finish) => (s', [id], .finished)
      | none, .errMw _ _ => dispatch cs rest path none s
      | none, .mountApp child =>
        let orig := reqApp s
        let rc := appHandle child rem s
        match rc.2.2 with
        | .finished => rc
        | .exhausted e =>
          seqLog rc.2.1 (dispatch cs rest path e (restoreCtx rc.1 orig))
      | some e, .errMw id f =>
        match f e s with
        | (s', .next) => seqLog [id] (dispatch cs rest path none s')
        | (s', .nextErr e2) => seqLog [id] (dispatch cs rest path (some e2) s')
        | (s', .finish) => (s', [id], .finished)
      | some _, .mw _ _ => dispatch cs rest path err s
      | some _, .mountApp _ => dispatch cs rest path err s

/-- Embedding of app.handle with a supplied callback (src/lib/application.js
lines 154-173): with no router the done callback is invoked immediately with
no argument and nothing runs; otherwise the router dispatch runs on the full
path with no pending error. -/
def appHandle (a : DApp) (path : String) (s : RS) : RS × List Nat × Exit :=
  match a with
  | .mk _ none => (s, [], .exhausted none)
  | .mk _ (some (.mk cs _strict stack)) => dispatch cs stack path none s
end

/-! ## Registration-level model

The registration surface: app.set, the lazily created router, app.use with
its path-argument disambiguation and array flattening, the mount adapter and
the mount event, and Router.route.  Handlers are registered by id; the
bridge build functions interpret the ids through a supplied middleware
environment and produce the dispatch-level structures above. -/

/-- A settings value as far as the embedded code inspects one: a boolean, a
string, a number, or a function value such as a compiled matcher. -/
inductive SVal where
  | b (v : Bool)
  | s (v : String)
  | num (n : Int)
  | fnv
deriving DecidableEq, Repr

/-- JavaScript truthiness of a settings value; functions are truthy. -/
def svTruthy : SVal → Bool
  | .b v => v
  | .s v => !v.isEmpty
  | .num n => n != 0
  | .fnv => true

/-- Update an association list in place, as assignment to a JavaScript
object key does: replace the first binding, else append. -/
def setsPut : List (String × SVal) → String → SVal → List (String × SVal)
  | [], k, v => [(k, v)]
  | (k0, v0) :: rest, k, v =>
    if k0 == k then (k0, v) :: rest else (k0, v0) :: setsPut rest k v

/-- Remove a key, as the delete operator does on an own property. -/
def setsEraseKey : List (String × SVal) → String → List (String × SVal)
  | [], _ => []
  | (k0, v0) :: rest, k =>
    if k0 == k then rest else (k0, v0) :: setsEraseKey rest k

/-- Lookup in a settings association list. -/
def setsLookup (l : List (String × SVal)) (k : String) : Option SVal :=
  (l.find? (fun p => p.1 == k)).map (fun p => p.2)

mutual
/-- One argument of a registration call, a JavaScript value: undefined, a
path string, a plain middleware function or an error-middleware function
known by id, an array of further arguments, or a whole application, which is
itself a function carrying handle and set. -/
inductive Arg where
  | undefined
  | str (s : String)
  | fnArg (id : Nat)
  | errFnArg (id : Nat)
  | arr (xs : ArgList)
  | application (a : AppReg)

/-- An argument list, kept inside the mutual family. -/
inductive ArgList where
  | nil
  | cons (a : Arg) (as : ArgList)

/-- A registered handler: plain middleware, error middleware, or the
mounted_app wrapper closed over a sub-application. -/
inductive HandlerReg where
  | hFn (id : Nat)
  | hErrFn (id : Nat)
  | hMounted (child : AppReg)

/-- One registered Layer: the raw path argument and the handler. -/
inductive LayerReg where
  | mk (pattern : Arg) (h : HandlerReg)

/-- The registered Layer stack, in registration order. -/
inductive LayerRegList where
  | nil
  | cons (l : LayerReg) (ls : LayerRegList)

/-- A registered Router: its matching options fixed at creation from the app
settings, its Layer stack, and the paths of the Routes created through it,
in creation order, a Route being identified by its index in that list. -/
inductive RouterReg where
  | mk (caseSensitive : Bool) (strict : Bool) (stack : LayerRegList)
       (routes : List String)

/-- The router slot of an application, kept inside the mutual family. -/
inductive RouterOptReg where
  | noneR
  | someR (r : RouterReg)

/-- An application at registration level: its id, its own settings and the
inherited settings chain (flattened), the trust-proxy back-compat marker,
the mountpath and parent recorded at mount time, the lazily created router,
and the application whose request and response objects currently serve as
prototypes, when reparented by a mount. -/
inductive AppReg where
  | mk (id : Nat)
       (settingsOwn : List (String × SVal))
       (settingsProto : List (String × SVal))
       (trustProxyDefault : Bool)
       (mountpath : Arg)
       (parentId : Option Nat)
       (router : RouterOptReg)
       (requestProtoOf : Option Nat)
       (responseProtoOf : Option Nat)
end

deriving instance DecidableEq for Arg, ArgList, HandlerReg, LayerReg,
  LayerRegList, RouterReg, RouterOptReg, AppReg

/-- The id of an application. -/
def AppReg.idOf : AppReg → Nat
  | .mk i _ _ _ _ _ _ _ _ => i

/-- The own settings of an application. -/
def AppReg.settingsOwnOf : AppReg → List (String × SVal)
  | .mk _ so _ _ _ _ _ _ _ => so

/-- The inherited settings chain of an application. -/
def AppReg.settingsProtoOf : AppReg → List (String × SVal)
  | .mk _ _ sp _ _ _ _ _ _ => sp

/-- The trust-proxy back-compat marker of an application. -/
def AppReg.trustProxyDefaultOf : AppReg → Bool
  | .mk _ _ _ t _ _ _ _ _ => t

/-- The mountpath of an application. -/
def AppReg.mountpathOf : AppReg → Arg
  | .mk _ _ _ _ m _ _ _ _ => m

/-- The parent id of an application. -/
def AppReg.parentIdOf : AppReg → Option Nat
  | .mk _ _ _ _ _ p _ _ _ => p

/-- The router slot of an application. -/
def AppReg.regRouter : AppReg → RouterOptReg
  | .mk _ _ _ _ _ _ r _ _ => r

/-- The id of the application whose request object is the prototype. -/
def AppReg.requestProtoOf : AppReg → Option Nat
  | .mk _ _ _ _ _ _ _ q _ => q

/-- The id of the application whose response object is the prototype. -/
def AppReg.responseProtoOf : AppReg → Option Nat
  | .mk _ _ _ _ _ _ _ _ q => q

/-- Replace the own settings. -/
def AppReg.withSettingsOwn : AppReg → List (String × SVal) → AppReg
  | .mk i _ sp t m p r q1 q2, so => .mk i so sp t m p r q1 q2

/-- Replace the inherited settings chain. -/
def AppReg.withSettingsProto : AppReg → List (String × SVal) → AppReg
  | .mk i so _ t m p r q1 q2, sp => .mk i so sp t m p r q1 q2

/-- Replace the trust-proxy marker. -/
def AppReg.withTrustProxyDefault : AppReg → Bool → AppReg
  | .mk i so sp _ m p r q1 q2, t => .mk i so sp t m p r q1 q2

/-- Replace the mountpath. -/
def AppReg.withMountpath : AppReg → Arg → AppReg
  | .mk i so sp t _ p r q1 q2, m => .mk i so sp t m p r q1 q2

/-- Replace the parent id. -/
def AppReg.withParentId : AppReg → Option Nat → AppReg
  | .mk i so sp t m _ r q1 q2, p => .mk i so sp t m p r q1 q2

/-- Replace the router slot. -/
def AppReg.withRouter : AppReg → RouterOptReg → AppReg
  | .mk i so sp t m p _ q1 q2, r => .mk i so sp t m p r q1 q2

/-- Replace the request prototype owner. -/
def AppReg.withRequestProtoOf : AppReg → Option Nat → AppReg
  | .mk i so sp t m p r _ q2, q => .mk i so sp t m p r q q2

/-- Replace the response prototype owner. -/
def AppReg.withResponseProtoOf : AppReg → Option Nat → AppReg
  | .mk i so sp t m p r q1 _, q => .mk i so sp t m p r q1 q

/-- The caseSensitive option of a router. -/
def RouterReg.csOf : RouterReg → Bool
  | .mk cs _ _ _ => cs

/-- The strict option of a router. -/
def RouterReg.strictOf : RouterReg → Bool
  | .mk _ st _ _ => st

/-- The Layer stack of a router. -/
def RouterReg.stackOf : RouterReg → LayerRegList
  | .mk _ _ stack _ => stack

/-- The created Route paths of a router, in creation order. -/
def RouterReg.routesOf : RouterReg → List String
  | .mk _ _ _ routes => routes

/-- Append one Layer at the end of a stack. -/
def LayerRegList.push : LayerRegList → LayerReg → LayerRegList
  | .nil, l => .cons l .nil
  | .cons x xs, l => .cons x (xs.push l)

/-- View a registered stack as a plain list. -/
def LayerRegList.toList : LayerRegList → List LayerReg
  | .nil => []
  | .cons x xs => x :: xs.toList

/-- Append one Layer to a router. -/
def RouterReg.pushLayer : RouterReg → LayerReg → RouterReg
  | .mk cs st stack routes, l => .mk cs st (stack.push l) routes

/-- Settings read on an application: own settings shadow the inherited
chain, and an absent key reads as undefined, here None. -/
def AppReg.getSetting (a : AppReg) (k : String) : Option SVal :=
  match setsLookup a.settingsOwnOf k with
  | some v => some v
  | none => setsLookup a.settingsProtoOf k

/-- Embedding of app.set with two arguments (src/unnamed/part_002 lines
317-350): store the value, then trigger the matched settings: etag and
query parser compile a companion function value through a nested set call
that hits no switch case, and trust proxy additionally clears the
back-compat marker. -/
def appSet (a : AppReg) (k : String) (v : SVal) : AppReg :=
  let a1 := a.withSettingsOwn (setsPut a.settingsOwnOf k v)
  if k == "etag" then
    a1.withSettingsOwn (setsPut a1.settingsOwnOf "etag fn" SVal.fnv)
  else if k == "query parser" then
    a1.withSettingsOwn (setsPut a1.settingsOwnOf "query parser fn" SVal.fnv)
  else if k == "trust proxy" then
    (a1.withSettingsOwn
      (setsPut a1.settingsOwnOf "trust proxy fn" SVal.fnv)).withTrustProxyDefault false
  else a1

/-- Embedding of app.enabled (src/unnamed/part_002 lines 384-386): the
truthiness of the one-argument set, which reads the setting, with an absent
key reading as undefined and hence false. -/
def appEnabled (a : AppReg) (k : String) : Bool :=
  match a.getSetting k with
  | some v => svTruthy v
  | none => false

/-- Embedding of the onmount listener registered by defaultConfiguration
(src/lib/application.js lines 81-96): under the back-compat condition the
child drops its own trust proxy entries, then the child's request and
response prototypes are reparented to the parent's, and the child's settings
inherit from the parent's through the prototype link, modelled as the
flattened parent chain recorded at mount time.  The engines reparenting
concerns only the excluded view-engine layer and is not tracked. -/
def onmount (child parent : AppReg) : AppReg :=
  let c1 :=
    if child.trustProxyDefaultOf &&
        (match parent.getSetting "trust proxy fn" with
         | some SVal.fnv => true
         | _ => false) then
      child.withSettingsOwn
        (setsEraseKey (setsEraseKey child.settingsOwnOf "trust proxy") "trust proxy fn")
    else child
  let c2 := c1.withRequestProtoOf (some parent.idOf)
  let c3 := c2.withResponseProtoOf (some parent.idOf)
  c3.withSettingsProto (parent.settingsOwnOf ++ parent.settingsProtoOf)

/-- Embedding of createApplication together with app.init and
defaultConfiguration (src/lib/express.js lines 29-50, src/lib/application.js
lines 49-122), in the development environment: the default settings are
installed through app.set, the trust-proxy back-compat marker is then raised,
the mountpath is the root, and no router exists yet.  The mount listener
this code registers is applied at emission by the use model below. -/
def createApplication (id : Nat) : AppReg :=
  let a := AppReg.mk id [] [] false (Arg.str "/") none RouterOptReg.noneR none none
  let a := appSet a "x-powered-by" (SVal.b true)
  let a := appSet a "etag" (SVal.s "weak")
  let a := appSet a "env" (SVal.s "env")
  let a := appSet a "query parser" (SVal.s "extended")
  let a := appSet a "subdomain offset" (SVal.num 2)
  let a := appSet a "trust proxy" (SVal.b false)
  let a := a.withTrustProxyDefault true
  let a := appSet a "view" SVal.fnv
  let a := appSet a "views" (SVal.s "views")
  let a := appSet a "jsonp callback name" (SVal.s "callback")
  a

/-- The id tagging the query default middleware the lazy router installs;
its body lives in the excluded middleware layer. -/
def queryMwId : Nat := 1000

/-- The id tagging the init default middleware the lazy router installs;
its body lives in the excluded middleware layer. -/
def initMwId : Nat := 1001

/-- Modelled from the spec: Router.use (section 6) appends one Layer at a
path; registering anything but a middleware function is a ContractViolation
reported as an immediate TypeError (section 7).  Application arguments never
reach this point from app.use, which wraps them in mounted_app first. -/
def routerUse (r : RouterReg) (path : Arg) (h : Arg) : Except JsError RouterReg :=
  match h with
  | .fnArg i => .ok (r.pushLayer (LayerReg.mk path (HandlerReg.hFn i)))
  | .errFnArg i => .ok (r.pushLayer (LayerReg.mk path (HandlerReg.hErrFn i)))
  | _ => .error (.typeError "Router.use() requires a middleware function")

/-- Embedding of app.lazyrouter (src/lib/application.js lines 133-143),
returning the mutated application together with its router as the source
reads this._router right after: on first need the router is created with the
matching options read from the current settings and the two default
middleware are installed at the root path. -/
def lazyrouterPair (a : AppReg) : AppReg × RouterReg :=
  match a.regRouter with
  | .someR r => (a, r)
  | .noneR =>
    let r0 := RouterReg.mk (appEnabled a "case sensitive routing")
      (appEnabled a "strict routing") LayerRegList.nil []
    let r1 := r0.pushLayer (LayerReg.mk (Arg.str "/") (HandlerReg.hFn queryMwId))
    let r2 := r1.pushLayer (LayerReg.mk (Arg.str "/") (HandlerReg.hFn initMwId))
    (a.withRouter (RouterOptReg.someR r2), r2)

/-- The application after lazyrouter alone. -/
def lazyrouterApp (a : AppReg) : AppReg := (lazyrouterPair a).1

/-- The while loop of app.use that drills into the first element of nested
arrays to find out whether a path was supplied (src/lib/application.js lines
195-197); an empty array stops the loop. -/
def drillFirst : Arg → Arg
  | .arr (.cons x _) => drillFirst x
  | a => a

/-- The typeof test for function: plain middleware, error middleware and
whole applications are functions. -/
def isFnLike : Arg → Bool
  | .fnArg _ => true
  | .errFnArg _ => true
  | .application _ => true
  | _ => false

/-- The offset and path computation of app.use (src/lib/application.js lines
186-204): a function-like first argument, possibly found by drilling nested
arrays, means no path was supplied and the prefix defaults to the root;
otherwise the raw first argument is the path and registration starts at the
second. -/
def useOffsetPath (args : List Arg) : Nat × Arg :=
  match args with
  | [] => (1, Arg.undefined)
  | fn :: _ =>
    if isFnLike fn then (0, Arg.str "/")
    else if isFnLike (drillFirst fn) then (0, Arg.str "/")
    else (1, fn)

mutual
/-- Deep array flattening of the registration arguments, as array-flatten
applies to the sliced argument list (src/lib/application.js line 206). -/
def flattenArgs : List Arg → List Arg
  | [] => []
  | a :: rest => flattenOne a ++ flattenArgs rest

/-- Flattening of one argument: arrays dissolve recursively, everything
else stays. -/
def flattenOne : Arg → List Arg
  | .arr xs => flattenArgsL xs
  | a => [a]

/-- Flattening of an embedded argument list. -/
def flattenArgsL : ArgList → List Arg
  | .nil => []
  | .cons a as => flattenOne a ++ flattenArgsL as
end

/-- Result of one app.use call: the mutated application, the thrown error if
any, with mutations up to the throw retained, and the mount events emitted,
in order, one entry naming each mounted child. -/
structure UseResult where
  app : AppReg
  thrown : Option JsError
  mountEvents : List Nat

/-- The forEach loop of app.use over the flattened handlers
(src/lib/application.js lines 216-237): a non-application goes to Router.use
at the computed path; an application is given its mountpath and parent, a
mounted_app wrapper Layer is pushed, and one mount event is then emitted on
it, synchronously, its listener applied when mountListenerOn holds.  A
thrown TypeError aborts the loop, keeping the Layers pushed so far. -/
def registerFns (mountListenerOn : Bool) (parent : AppReg) (path : Arg)
    (r : RouterReg) : List Arg → RouterReg × Option JsError × List Nat
  | [] => (r, none, [])
  | f :: rest =>
    match f with
    | .application child =>
      let child1 := (child.withMountpath path).withParentId (some parent.idOf)
      let child2 := if mountListenerOn then onmount child1 parent else child1
      let r1 := r.pushLayer (LayerReg.mk path (HandlerReg.hMounted child2))
      let res := registerFns mountListenerOn parent path r1 rest
      (res.1, res.2.1, child.idOf :: res.2.2)
    | _ =>
      match routerUse r path f with
      | .ok r1 => registerFns mountListenerOn parent path r1 rest
      | .error te => (r, some te, [])

/-- Embedding of app.use (src/lib/application.js lines 185-239),
parameterized by whether the mount listener defaultConfiguration installs on
every application is present, so that the true instance is the source
behavior and the false instance is the comparison world in which the mount
event has no listeners: compute offset and path, flatten the rest, throw
before touching anything when no handler remains, else ensure the router and
register each handler in order. -/
def appUseWith (mountListenerOn : Bool) (a : AppReg) (args : List Arg) : UseResult :=
  let op := useOffsetPath args
  let fns := flattenArgs (args.drop op.1)
  if fns.isEmpty then
    ⟨a, some (.typeError "app.use() requires a middleware function"), []⟩
  else
    let ar := lazyrouterPair a
    let res := registerFns mountListenerOn ar.1 op.2 ar.2 fns
    ⟨ar.1.withRouter (RouterOptReg.someR res.1), res.2.1, res.2.2⟩

/-- app.use as the source behaves: the mount listener is present. -/
def appUse (a : AppReg) (args : List Arg) : UseResult := appUseWith true a args

/-- The hypothetical app.use of a world in which the mount event has no
listeners, used to compare dispatch semantics across the two worlds. -/
def appUseQuiet (a : AppReg) (args : List Arg) : UseResult := appUseWith false a args

/-- Index of the first occurrence of a string in a list, None when absent. -/
def idxOf? : List String → String → Option Nat
  | [], _ => none
  | x :: xs, p => if x == p then some 0 else (idxOf? xs p).map (fun i => i + 1)

/-- Modelled from the spec: Router.route is fetch-or-create on the exact
path pattern (sections 6 and 8): an existing Route is returned as is, a new
path appends one Route at the end; the Route instance is identified by its
index in the creation-order list, so returning the same index is returning
the identical instance.  The per-method handler stacks of a Route are beyond
the claims settled here and are not tracked. -/
def RouterReg.fetchRoute (r : RouterReg) (p : String) : Nat × RouterReg :=
  match r with
  | .mk cs st stack routes =>
    match idxOf? routes p with
    | some i => (i, .mk cs st stack routes)
    | none => (routes.length, .mk cs st stack (routes ++ [p]))

/-- Embedding of app.route (src/unnamed/part_002 lines 249-252): ensure the
router, then proxy to its route. -/
def appRoute (a : AppReg) (p : String) : Nat × AppReg :=
  let ar := lazyrouterPair a
  let ir := ar.2.fetchRoute p
  (ir.1, ar.1.withRouter (RouterOptReg.someR ir.2))

/-- Conversion of a registered path argument to a dispatch pattern: string
paths become literal prefixes; the non-string patterns fall outside the
modelled string fragment of the matcher and never match. -/
def buildPat : Arg → DPat
  | .str s => DPat.lit s
  | _ => DPat.never

mutual
/-- Interpretation of a registered application at dispatch level: the
middleware environments give the behavior of the plain and error handlers
registered by id. -/
def buildApp (envF : Nat → RS → RS × MwAction)
    (envE : Nat → String → RS → RS × MwAction) : AppReg → DApp
  | .mk i _ _ _ _ _ r _ _ => DApp.mk i (buildRouterSlot envF envE r)

/-- Interpretation of a router slot. -/
def buildRouterSlot (envF : Nat → RS → RS × MwAction)
    (envE : Nat → String → RS → RS × MwAction) : RouterOptReg → Option DRouter
  | .noneR => none
  | .someR r => some (buildRouter envF envE r)

/-- Interpretation of a registered router. -/
def buildRouter (envF : Nat → RS → RS × MwAction)
    (envE : Nat → String → RS → RS × MwAction) : RouterReg → DRouter
  | .mk cs st stack _ => DRouter.mk cs st (buildStack envF envE stack)

/-- Interpretation of a registered Layer stack. -/
def buildStack (envF : Nat → RS → RS × MwAction)
    (envE : Nat → String → RS → RS × MwAction) : LayerRegList → DLayers
  | .nil => DLayers.nil
  | .cons (.mk pat h) ls =>
    DLayers.cons (DLayer.mk (buildPat pat) (buildHandlerReg envF envE h))
      (buildStack envF envE ls)

/-- Interpretation of a registered handler. -/
def buildHandlerReg (envF : Nat → RS → RS × MwAction)
    (envE : Nat → String → RS → RS × MwAction) : HandlerReg → Handler
  | .hFn i => Handler.mw i (envF i)
  | .hErrFn i => Handler.errMw i (envE i)
  | .hMounted c => Handler.mountApp (buildApp envF envE c)
end

/-- The registered Layer stack of an application as a plain list, empty
while no router exists. -/
def stackListOf (a : AppReg) : List LayerReg :=
  match a.regRouter with
  | .noneR => []
  | .someR r => r.stackOf.toList

/-- The Layer one app.use call appends for one flattened function-like
argument, given the registering application and the computed path: plain and
error middleware keep their id, an application is stored behind the
mounted_app wrapper after receiving its mountpath, its parent and the mount
notification.  The last equation is never reached for a function-like
argument. -/
def expectedLayer (parent : AppReg) (path : Arg) : Arg → LayerReg
  | .fnArg i => LayerReg.mk path (HandlerReg.hFn i)
  | .errFnArg i => LayerReg.mk path (HandlerReg.hErrFn i)
  | .application child =>
    LayerReg.mk path (HandlerReg.hMounted
      (onmount ((child.withMountpath path).withParentId (some parent.idOf)) parent))
  | _ => LayerReg.mk path (HandlerReg.hFn 0)

/-- The mounted children stored in a registered Layer stack, in order. -/
def stackChildren : LayerRegList → List AppReg
  | .nil => []
  | .cons (.mk _ (HandlerReg.hMounted c)) ls => c :: stackChildren ls
  | .cons _ ls => stackChildren ls

/-- The mounted children of an application, in mount order. -/
def mountedChildren (a : AppReg) : List AppReg :=
  match a.regRouter with
  | .noneR => []
  | .someR r => stackChildren r.stackOf

/-- A middleware environment in which every plain handler passes control on
unchanged. -/
def envNextAll : Nat → RS → RS × MwAction := fun _ s => (s, MwAction.next)

/-- An error-middleware environment in which every handler recovers and
passes control on unchanged. -/
def envErrNextAll : Nat → String → RS → RS × MwAction := fun _ _ s => (s, MwAction.next)

/-- The mount scenario comparing the two worlds: a parent with case
sensitive routing enabled mounts a fresh child under a prefix; the child as
stored in the parent's stack is then extracted.  With the listener present
the child's settings inherit the parent's, without it they do not. -/
def mountScenarioChild (mountListenerOn : Bool) : AppReg :=
  let parent := appSet (createApplication 0) "case sensitive routing" (SVal.b true)
  let res := appUseWith mountListenerOn parent
    [Arg.str "/sub", Arg.application (createApplication 1)]
  ((mountedChildren res.app).head?).getD (createApplication 1)

/-- Continuation of the mount scenario: only after the mount does the child
register a handler at an upper-case path, which creates its router and fixes
its matching options from the now possibly inherited settings; a lower-case
request is then dispatched through the child. -/
def mountScenarioRun (mountListenerOn : Bool) : RS × List Nat × Exit :=
  let child := mountScenarioChild mountListenerOn
  let child2 := (appUse child [Arg.str "/A", Arg.fnArg 42]).app
  appHandle (buildApp envNextAll envErrNextAll child2) "/a" ⟨1, 1⟩

/-- Embedding of the application closure createApplication returns
(src/lib/express.js lines 30-32): the application object is itself a
function, and calling it forwards its three arguments to app.handle. -/
def appAsCallable (a : DApp) : String → RS → RS × List Nat × Exit :=
  fun path s => appHandle a path s
/-! ## Theorems about the dispatch loop -/

/-- Helper: unfolding of the dispatch loop at a mounted-application Layer
whose child run exhausts: the continuation the wrapper passed to the child
forwards the pending error to the outer next, the parent loop resumes over
the remaining Layers, and the request context passed on has both prototypes
restored to the application read from req.app on entry. -/
theorem dispatch_mount_exhausted
    (cs : Bool) (pat : DPat) (child : DApp) (rest : DLayers)
    (path rem : String) (s s' : RS) (lg : List Nat) (e : Option String)
    (hm : pMatch cs pat path = some rem)
    (hc : appHandle child rem s = (s', lg, Exit.exhausted e)) :
    dispatch cs (DLayers.cons (DLayer.mk pat (Handler.mountApp child)) rest) path none s
      = seqLog lg (dispatch cs rest path e (restoreCtx s' (reqApp s))) := by
  rw [dispatch, hm]
  dsimp only
  rw [hc]

/-- C1: When a sub-application is mounted into a parent via use(path, subapp),
exhaustion of the mounted child's dispatch is non-terminal: the continuation
passed to the child's handle invokes the parent's next, forwarding any
pending error, never the parent's top-level done callback, so the parent
resumes searching its remaining Layers after the child exhausts its own
stack; the whole run can only reach the done callback through that
continued parent search. -/
theorem claim_mount_exhaustion_nonterminal
    (cs : Bool) (pat : DPat) (child : DApp) (rest : DLayers)
    (path rem : String) (s s' : RS) (lg : List Nat) (e : Option String)
    (hm : pMatch cs pat path = some rem)
    (hc : appHandle child rem s = (s', lg, Exit.exhausted e)) :
    dispatch cs (DLayers.cons (DLayer.mk pat (Handler.mountApp child)) rest) path none s
      = seqLog lg (dispatch cs rest path e (restoreCtx s' (reqApp s))) :=
  dispatch_mount_exhausted cs pat child rest path rem s s' lg e hm hc

/-- Witness for C1 at a concrete mount: a child under the path /api owning
only a non-matching Layer /zzz exhausts on the request /api/users, and the
parent resumes over its remaining stack. -/
theorem claim_mount_exhaustion_nonterminal_witness :
    pMatch false (DPat.lit "/api") "/api/users" = some "/users" ∧
    appHandle (DApp.mk 5 (some (DRouter.mk false false
        (DLayers.cons (DLayer.mk (DPat.lit "/zzz")
          (Handler.mw 9 (fun s => (s, MwAction.next)))) DLayers.nil))))
      "/users" ⟨1, 1⟩ = (⟨1, 1⟩, [], Exit.exhausted none) ∧
    dispatch false
        (DLayers.cons
          (DLayer.mk (DPat.lit "/api") (Handler.mountApp
            (DApp.mk 5 (some (DRouter.mk false false
              (DLayers.cons (DLayer.mk (DPat.lit "/zzz")
                (Handler.mw 9 (fun s => (s, MwAction.next)))) DLayers.nil))))))
          (DLayers.cons (DLayer.mk (DPat.lit "/")
            (Handler.mw 3 (fun s => (s, MwAction.next)))) DLayers.nil))
        "/api/users" none ⟨1, 1⟩
      = seqLog [] (dispatch false
          (DLayers.cons (DLayer.mk (DPat.lit "/")
            (Handler.mw 3 (fun s => (s, MwAction.next)))) DLayers.nil)
          "/api/users" none (restoreCtx ⟨1, 1⟩ (reqApp ⟨1, 1⟩))) :=
  ⟨rfl, rfl,
    claim_mount_exhaustion_nonterminal false (DPat.lit "/api") _ _
      "/api/users" "/users" ⟨1, 1⟩ ⟨1, 1⟩ [] none rfl rfl⟩

/-- C2: when dispatch has nothing to run, in particular when the application
has no router because nothing was ever registered, and likewise for a router
whose stack is empty, handle invokes the done callback exactly once with no
error argument and invokes no handler: the invocation log is empty and the
done-call record is exactly one call carrying no error. -/
theorem claim_handle_empty_done_once
    (a : DApp) (path : String) (s : RS)
    (h : a.routerOf = none ∨
      ∃ cs strict, a.routerOf = some (DRouter.mk cs strict DLayers.nil)) :
    appHandle a path s = (s, [], Exit.exhausted none) ∧
    doneCalls (appHandle a path s).2.2 = [none] := by
  cases a with
  | mk i r =>
    rcases h with h | ⟨cs, st, h⟩ <;> simp only [DApp.routerOf] at h <;> subst h
    · exact ⟨rfl, rfl⟩
    · exact ⟨rfl, rfl⟩

/-- Witness for C2 on a freshly created application, whose router field is
still None. -/
theorem claim_handle_empty_done_once_witness :
    (DApp.mk 0 none).routerOf = none ∧
    (appHandle (DApp.mk 0 none) "/missing" ⟨0, 0⟩ = (⟨0, 0⟩, [], Exit.exhausted none) ∧
     doneCalls (appHandle (DApp.mk 0 none) "/missing" ⟨0, 0⟩).2.2 = [none]) :=
  ⟨rfl, claim_handle_empty_done_once (DApp.mk 0 none) "/missing" ⟨0, 0⟩ (Or.inl rfl)⟩

/-- C3: for every request dispatched through a mounted sub-application, when
the child's dispatch exits by falling through via next, with or without an
error, the mount adapter restores the prototypes of the request and the
response to those of the parent application, recorded from req.app on entry,
before the parent's dispatch loop resumes; when on entry the response
carried the same application context as the request, both prototypes are
exactly as they were on entry. -/
theorem claim_mount_restores_parent_protos
    (cs : Bool) (pat : DPat) (child : DApp) (rest : DLayers)
    (path rem : String) (s s' : RS) (lg : List Nat) (e : Option String)
    (hm : pMatch cs pat path = some rem)
    (hc : appHandle child rem s = (s', lg, Exit.exhausted e)) :
    (dispatch cs (DLayers.cons (DLayer.mk pat (Handler.mountApp child)) rest) path none s
      = seqLog lg (dispatch cs rest path e (restoreCtx s' (reqApp s))))
    ∧ (restoreCtx s' (reqApp s)).reqProto = s.reqProto
    ∧ (s.resProto = s.reqProto →
        (restoreCtx s' (reqApp s)).resProto = s.resProto) :=
  ⟨dispatch_mount_exhausted cs pat child rest path rem s s' lg e hm hc,
   rfl,
   fun hres => by simp [restoreCtx, reqApp, hres]⟩

/-- Witness for C3 at a concrete mount in which the child swaps the request
and response prototypes to its own before exhausting with an error, and the
adapter hands the parent back its own context. -/
theorem claim_mount_restores_parent_protos_witness :
    pMatch false (DPat.lit "/admin") "/admin/x" = some "/x" ∧
    appHandle (DApp.mk 7 (some (DRouter.mk false false
        (DLayers.cons (DLayer.mk (DPat.lit "/")
          (Handler.mw 4 (fun _ => (⟨7, 7⟩, MwAction.nextErr "boom")))) DLayers.nil))))
      "/x" ⟨2, 2⟩ = (⟨7, 7⟩, [4], Exit.exhausted (some "boom")) ∧
    ((dispatch false
        (DLayers.cons
          (DLayer.mk (DPat.lit "/admin") (Handler.mountApp
            (DApp.mk 7 (some (DRouter.mk false false
              (DLayers.cons (DLayer.mk (DPat.lit "/")
                (Handler.mw 4 (fun _ => (⟨7, 7⟩, MwAction.nextErr "boom")))) DLayers.nil))))))
          DLayers.nil)
        "/admin/x" none ⟨2, 2⟩
      = seqLog [4] (dispatch false DLayers.nil "/admin/x" (some "boom")
          (restoreCtx ⟨7, 7⟩ (reqApp ⟨2, 2⟩))))
    ∧ (restoreCtx ⟨7, 7⟩ (reqApp ⟨2, 2⟩)).reqProto = (⟨2, 2⟩ : RS).reqProto
    ∧ ((⟨2, 2⟩ : RS).resProto = (⟨2, 2⟩ : RS).reqProto →
        (restoreCtx ⟨7, 7⟩ (reqApp ⟨2, 2⟩)).resProto = (⟨2, 2⟩ : RS).resProto)) :=
  ⟨rfl, rfl,
    claim_mount_restores_parent_protos false (DPat.lit "/admin") _ DLayers.nil
      "/admin/x" "/x" ⟨2, 2⟩ ⟨7, 7⟩ [4] (some "boom") rfl rfl⟩

/-! ## Theorems about the registration surface -/

/-- Pushing a Layer appends it at the end of the stack list. -/
theorem push_toList : ∀ (s : LayerRegList) (l : LayerReg),
    (s.push l).toList = s.toList ++ [l]
  | .nil, _ => rfl
  | .cons x xs, l => by
    simp [LayerRegList.push, LayerRegList.toList, push_toList xs l]

/-- pushLayer appends at the end of the router's stack list. -/
theorem pushLayer_toList (r : RouterReg) (l : LayerReg) :
    (r.pushLayer l).stackOf.toList = r.stackOf.toList ++ [l] := by
  obtain ⟨cs, st, stack, routes⟩ := r
  simp [RouterReg.pushLayer, RouterReg.stackOf, push_toList]

/-- The router slot after withRouter. -/
theorem withRouter_regRouter (a : AppReg) (r : RouterOptReg) :
    (a.withRouter r).regRouter = r := by
  obtain ⟨i, so, sp, t, m, p, r0, q1, q2⟩ := a
  rfl

/-- Two successive withRouter updates collapse to the last. -/
theorem withRouter_withRouter (a : AppReg) (r1 r2 : RouterOptReg) :
    (a.withRouter r1).withRouter r2 = a.withRouter r2 := by
  obtain ⟨i, so, sp, t, m, p, r0, q1, q2⟩ := a
  rfl

/-- The stack list after installing a router. -/
theorem stackListOf_withRouter (a : AppReg) (r : RouterReg) :
    stackListOf (a.withRouter (RouterOptReg.someR r)) = r.stackOf.toList := by
  obtain ⟨i, so, sp, t, m, p, r0, q1, q2⟩ := a
  rfl

/-- lazyrouter keeps an existing router. -/
theorem lazyrouterPair_of_some (a : AppReg) (r : RouterReg)
    (h : a.regRouter = RouterOptReg.someR r) : lazyrouterPair a = (a, r) := by
  unfold lazyrouterPair
  rw [h]

/-- The stack of the application after lazyrouter is the stack of the router
lazyrouter yields. -/
theorem lazyrouterApp_stackList (a : AppReg) :
    stackListOf (lazyrouterApp a) = (lazyrouterPair a).2.stackOf.toList := by
  unfold lazyrouterApp lazyrouterPair
  match h : a.regRouter with
  | .someR r =>
    obtain ⟨i, so, sp, t, m, p, r0, q1, q2⟩ := a
    simp only [AppReg.regRouter] at h
    subst h
    rfl
  | .noneR => simp [stackListOf_withRouter]

/-- The registration loop over function-like arguments only: no error is
thrown and exactly the expected Layers are appended, in order. -/
theorem registerFns_all_fnlike (parent : AppReg) (path : Arg) :
    ∀ (fns : List Arg) (r : RouterReg), (∀ f ∈ fns, isFnLike f = true) →
      (registerFns true parent path r fns).1.stackOf.toList
          = r.stackOf.toList ++ fns.map (expectedLayer parent path)
        ∧ (registerFns true parent path r fns).2.1 = none := by
  intro fns
  induction fns with
  | nil => intro r _; simp [registerFns]
  | cons f rest ih =>
    intro r h
    have hf : isFnLike f = true := h f (by simp)
    have hrest : ∀ g ∈ rest, isFnLike g = true := fun g hg => h g (by simp [hg])
    cases f with
    | fnArg i =>
      have := ih (r.pushLayer (LayerReg.mk path (HandlerReg.hFn i))) hrest
      simp [registerFns, routerUse, this.1, this.2, pushLayer_toList, expectedLayer]
    | errFnArg i =>
      have := ih (r.pushLayer (LayerReg.mk path (HandlerReg.hErrFn i))) hrest
      simp [registerFns, routerUse, this.1, this.2, pushLayer_toList, expectedLayer]
    | application child =>
      have := ih (r.pushLayer (LayerReg.mk path (HandlerReg.hMounted
        (onmount ((child.withMountpath path).withParentId (some parent.idOf)) parent)))) hrest
      simp [registerFns, this.1, this.2, pushLayer_toList, expectedLayer]
    | undefined => simp [isFnLike] at hf
    | str s => simp [isFnLike] at hf
    | arr xs => simp [isFnLike] at hf

/-- C4: every call use(handlers...) or use(path, handlers...) appends each
given handler as a Layer to the router's stack in call order, nested arrays
flattened and registered in order, and when the first argument is already a
function no path was supplied and the prefix defaults to the root path. -/
theorem claim_use_appends_in_order
    (a : AppReg) (args : List Arg)
    (h : ∀ f ∈ flattenArgs (args.drop (useOffsetPath args).1), isFnLike f = true)
    (hne : flattenArgs (args.drop (useOffsetPath args).1) ≠ []) :
    (appUse a args).thrown = none ∧
    stackListOf (appUse a args).app
      = stackListOf (lazyrouterApp a)
        ++ (flattenArgs (args.drop (useOffsetPath args).1)).map
            (expectedLayer (lazyrouterApp a) (useOffsetPath args).2) ∧
    (∀ f0 rest0, args = f0 :: rest0 → isFnLike f0 = true →
      (useOffsetPath args).2 = Arg.str "/") := by
  have hreg := registerFns_all_fnlike (lazyrouterApp a) (useOffsetPath args).2
    (flattenArgs (args.drop (useOffsetPath args).1)) (lazyrouterPair a).2 h
  have hemp : (flattenArgs (args.drop (useOffsetPath args).1)).isEmpty = false := by
    cases hx : flattenArgs (args.drop (useOffsetPath args).1) with
    | nil => exact absurd hx hne
    | cons y ys => rfl
  refine ⟨?_, ?_, ?_⟩
  · simp only [appUse, appUseWith, hemp, Bool.false_eq_true, if_false]
    exact hreg.2
  · simp only [appUse, appUseWith, hemp, Bool.false_eq_true, if_false,
      stackListOf_withRouter, lazyrouterApp_stackList]
    exact hreg.1
  · intro f0 rest0 heq hf0
    subst heq
    simp [useOffsetPath, hf0]

/-- C5: a use call whose arguments contain no middleware function throws a
TypeError at registration time: the error is reported, an existing router's
state is unchanged, and in the no-handler case, such as a lone path or an
empty array, the application is untouched entirely. -/
theorem claim_use_no_middleware_typeerror
    (a : AppReg) (args : List Arg)
    (h : ∀ f ∈ flattenArgs (args.drop (useOffsetPath args).1), isFnLike f = false) :
    ((appUse a args).thrown.isSome = true) ∧
    (∀ r, a.regRouter = RouterOptReg.someR r →
      (appUse a args).app.regRouter = RouterOptReg.someR r ∧
      stackListOf (appUse a args).app = stackListOf a) ∧
    (flattenArgs (args.drop (useOffsetPath args).1) = [] → (appUse a args).app = a) := by
  cases hx : flattenArgs (args.drop (useOffsetPath args).1) with
  | nil =>
    refine ⟨?_, ?_, ?_⟩
    · simp [appUse, appUseWith, hx]
    · intro r hr
      constructor
      · simp [appUse, appUseWith, hx, hr]
      · simp [appUse, appUseWith, hx]
    · intro _
      simp [appUse, appUseWith, hx]
  | cons f rest =>
    have hf : isFnLike f = false := by
      have := h f
      rw [hx] at this
      exact this (by simp)
    have hstep : ∀ (pa : AppReg) (r0 : RouterReg),
        registerFns true pa (useOffsetPath args).2 r0 (f :: rest)
        = (r0,
           some (JsError.typeError "Router.use() requires a middleware function"), []) := by
      intro pa r0
      cases f with
      | undefined => simp [registerFns, routerUse]
      | str s => simp [registerFns, routerUse]
      | arr xs => simp [registerFns, routerUse]
      | fnArg i => simp [isFnLike] at hf
      | errFnArg i => simp [isFnLike] at hf
      | application c => simp [isFnLike] at hf
    refine ⟨?_, ?_, ?_⟩
    · simp [appUse, appUseWith, hx, hstep]
    · intro r hr
      have hlz : lazyrouterPair a = (a, r) := lazyrouterPair_of_some a r hr
      have happ : (appUse a args).app = a.withRouter (RouterOptReg.someR r) := by
        simp [appUse, appUseWith, hx, hlz, hstep]
      have hstLa : stackListOf a = r.stackOf.toList := by
        obtain ⟨i, so, sp, t, m, p, r0, q1, q2⟩ := a
        simp only [AppReg.regRouter] at hr
        subst hr
        rfl
      refine ⟨?_, ?_⟩
      · rw [happ, withRouter_regRouter]
      · rw [happ, stackListOf_withRouter, hstLa]
    · intro hcontra
      exact absurd hcontra (by simp)

/-- Witness for C4: a call with no path argument, one plain handler, one
handler inside a nested array and one error handler appends three Layers in
call order at the default root prefix. -/
theorem claim_use_appends_in_order_witness :
    (∀ f ∈ flattenArgs
        (([Arg.fnArg 7, Arg.arr (ArgList.cons (Arg.fnArg 8) ArgList.nil),
           Arg.errFnArg 9]).drop
          (useOffsetPath [Arg.fnArg 7,
            Arg.arr (ArgList.cons (Arg.fnArg 8) ArgList.nil), Arg.errFnArg 9]).1),
      isFnLike f = true) ∧
    (appUse (createApplication 4)
      [Arg.fnArg 7, Arg.arr (ArgList.cons (Arg.fnArg 8) ArgList.nil),
       Arg.errFnArg 9]).thrown = none ∧
    stackListOf (appUse (createApplication 4)
        [Arg.fnArg 7, Arg.arr (ArgList.cons (Arg.fnArg 8) ArgList.nil),
         Arg.errFnArg 9]).app
      = stackListOf (lazyrouterApp (createApplication 4))
        ++ (flattenArgs
            (([Arg.fnArg 7, Arg.arr (ArgList.cons (Arg.fnArg 8) ArgList.nil),
               Arg.errFnArg 9]).drop
              (useOffsetPath [Arg.fnArg 7,
                Arg.arr (ArgList.cons (Arg.fnArg 8) ArgList.nil), Arg.errFnArg 9]).1)).map
            (expectedLayer (lazyrouterApp (createApplication 4))
              (useOffsetPath [Arg.fnArg 7,
                Arg.arr (ArgList.cons (Arg.fnArg 8) ArgList.nil), Arg.errFnArg 9]).2) ∧
    (useOffsetPath [Arg.fnArg 7, Arg.arr (ArgList.cons (Arg.fnArg 8) ArgList.nil),
      Arg.errFnArg 9]).2 = Arg.str "/" :=
  ⟨by decide,
   (claim_use_appends_in_order (createApplication 4) _ (by decide) (by decide)).1,
   (claim_use_appends_in_order (createApplication 4) _ (by decide) (by decide)).2.1,
   (claim_use_appends_in_order (createApplication 4) _ (by decide) (by decide)).2.2
     (Arg.fnArg 7)
     [Arg.arr (ArgList.cons (Arg.fnArg 8) ArgList.nil), Arg.errFnArg 9] rfl rfl⟩

/-- Witness for C5: a call carrying only a path throws the TypeError and
leaves the application exactly as it was. -/
theorem claim_use_no_middleware_typeerror_witness :
    (∀ f ∈ flattenArgs (([Arg.str "/x"]).drop (useOffsetPath [Arg.str "/x"]).1),
      isFnLike f = false) ∧
    (appUse (createApplication 3) [Arg.str "/x"]).thrown.isSome = true ∧
    (appUse (createApplication 3) [Arg.str "/x"]).app = createApplication 3 :=
  ⟨by decide,
   (claim_use_no_middleware_typeerror (createApplication 3) [Arg.str "/x"] (by decide)).1,
   (claim_use_no_middleware_typeerror (createApplication 3) [Arg.str "/x"]
     (by decide)).2.2 (by decide)⟩

/-- Appending the missing path and searching again finds it at the end. -/
theorem idxOf?_append_self : ∀ (l : List String) (p : String),
    idxOf? l p = none → idxOf? (l ++ [p]) p = some l.length
  | [], p, _ => by simp [idxOf?]
  | x :: xs, p, h => by
    by_cases hb : (x == p) = true
    · simp [idxOf?, hb] at h
    · have hxs : idxOf? xs p = none := by
        simp only [idxOf?, if_neg hb] at h
        cases hq : idxOf? xs p with
        | none => rfl
        | some i => rw [hq] at h; simp at h
      simp [idxOf?, hb, idxOf?_append_self xs p hxs]

/-- Fetching the same Route path twice is a fixed point: the second call
returns the identical index and leaves the router unchanged. -/
theorem fetchRoute_idem (r : RouterReg) (p : String) :
    ((r.fetchRoute p).2).fetchRoute p = r.fetchRoute p := by
  obtain ⟨cs, st, stack, routes⟩ := r
  cases hidx : idxOf? routes p with
  | some i => simp [RouterReg.fetchRoute, hidx]
  | none =>
    simp [RouterReg.fetchRoute, hidx, idxOf?_append_self routes p hidx]

/-- C6: Route lookup is idempotent: calling route on the same path twice
against the same application yields the identical Route instance, and the
second call changes nothing, so handlers registered through both calls
accumulate on one Route, not two. -/
theorem claim_route_idempotent (a : AppReg) (p : String) :
    (appRoute (appRoute a p).2 p).1 = (appRoute a p).1 ∧
    (appRoute (appRoute a p).2 p).2 = (appRoute a p).2 := by
  have hfix := fetchRoute_idem (lazyrouterPair a).2 p
  have hlz2 : lazyrouterPair ((lazyrouterPair a).1.withRouter
      (RouterOptReg.someR ((lazyrouterPair a).2.fetchRoute p).2))
      = ((lazyrouterPair a).1.withRouter
          (RouterOptReg.someR ((lazyrouterPair a).2.fetchRoute p).2),
         ((lazyrouterPair a).2.fetchRoute p).2) :=
    lazyrouterPair_of_some _ _ (withRouter_regRouter _ _)
  constructor
  · show (appRoute ((lazyrouterPair a).1.withRouter
        (RouterOptReg.someR ((lazyrouterPair a).2.fetchRoute p).2)) p).1
      = ((lazyrouterPair a).2.fetchRoute p).1
    unfold appRoute
    rw [hlz2]
    dsimp only
    rw [hfix]
  · show (appRoute ((lazyrouterPair a).1.withRouter
        (RouterOptReg.someR ((lazyrouterPair a).2.fetchRoute p).2)) p).2
      = (lazyrouterPair a).1.withRouter
          (RouterOptReg.someR ((lazyrouterPair a).2.fetchRoute p).2)
    unfold appRoute
    rw [hlz2]
    dsimp only
    rw [hfix, withRouter_withRouter]

/-- withMountpath leaves the router slot alone. -/
theorem withMountpath_regRouter (a : AppReg) (m : Arg) :
    (a.withMountpath m).regRouter = a.regRouter := by
  obtain ⟨i, so, sp, t, m0, p, r0, q1, q2⟩ := a
  rfl

/-- withParentId leaves the router slot alone. -/
theorem withParentId_regRouter (a : AppReg) (p : Option Nat) :
    (a.withParentId p).regRouter = a.regRouter := by
  obtain ⟨i, so, sp, t, m0, p0, r0, q1, q2⟩ := a
  rfl

/-- withSettingsOwn leaves the router slot alone. -/
theorem withSettingsOwn_regRouter (a : AppReg) (v : List (String × SVal)) :
    (a.withSettingsOwn v).regRouter = a.regRouter := by
  obtain ⟨i, so, sp, t, m0, p0, r0, q1, q2⟩ := a
  rfl

/-- withSettingsProto leaves the router slot alone. -/
theorem withSettingsProto_regRouter (a : AppReg) (v : List (String × SVal)) :
    (a.withSettingsProto v).regRouter = a.regRouter := by
  obtain ⟨i, so, sp, t, m0, p0, r0, q1, q2⟩ := a
  rfl

/-- withRequestProtoOf leaves the router slot alone. -/
theorem withRequestProtoOf_regRouter (a : AppReg) (q : Option Nat) :
    (a.withRequestProtoOf q).regRouter = a.regRouter := by
  obtain ⟨i, so, sp, t, m0, p0, r0, q1, q2⟩ := a
  rfl

/-- withResponseProtoOf leaves the router slot alone. -/
theorem withResponseProtoOf_regRouter (a : AppReg) (q : Option Nat) :
    (a.withResponseProtoOf q).regRouter = a.regRouter := by
  obtain ⟨i, so, sp, t, m0, p0, r0, q1, q2⟩ := a
  rfl

/-- The mount listener never touches the router slot of the child. -/
theorem onmount_regRouter (c pa : AppReg) :
    (onmount c pa).regRouter = c.regRouter := by
  unfold onmount
  dsimp only
  rw [withSettingsProto_regRouter, withResponseProtoOf_regRouter,
    withRequestProtoOf_regRouter]
  split
  · rw [withSettingsOwn_regRouter]
  · rfl

/-- C7 amended: mounting a sub-application emits exactly one mount event on
the child, synchronously during registration, and the notification leaves
the child's router slot, hence any already created stack and matching
options, untouched; the parent merely gains the one mounted_app wrapper
Layer.  What the notification can change is the child's inherited settings,
which feed the matching options of a router the child creates only later. -/
theorem claim_mount_event_once_router_untouched (parent child : AppReg) (p : String) :
    (appUse parent [Arg.str p, Arg.application child]).mountEvents = [child.idOf] ∧
    (onmount ((child.withMountpath (Arg.str p)).withParentId
        (some (lazyrouterApp parent).idOf)) (lazyrouterApp parent)).regRouter
      = child.regRouter ∧
    stackListOf (appUse parent [Arg.str p, Arg.application child]).app
      = stackListOf (lazyrouterApp parent)
        ++ [LayerReg.mk (Arg.str p) (HandlerReg.hMounted
            (onmount ((child.withMountpath (Arg.str p)).withParentId
              (some (lazyrouterApp parent).idOf)) (lazyrouterApp parent)))] := by
  refine ⟨?_, ?_, ?_⟩
  · simp [appUse, appUseWith, useOffsetPath, isFnLike, drillFirst,
      flattenArgs, flattenOne, registerFns]
  · rw [onmount_regRouter, withParentId_regRouter, withMountpath_regRouter]
  · simp only [appUse, appUseWith, useOffsetPath, isFnLike, drillFirst,
      flattenArgs, flattenOne, registerFns, List.drop, List.isEmpty_cons,
      List.append_nil, Bool.false_eq_true, if_false, stackListOf_withRouter,
      pushLayer_toList]
    simp only [lazyrouterApp]
    have hst : stackListOf (lazyrouterPair parent).1
        = (lazyrouterPair parent).2.stackOf.toList := lazyrouterApp_stackList parent
    rw [hst]
    simp

/-- C7 counterexample: the claim that the mount notification never affects
how paths are matched fails.  A parent enables case sensitive routing and
mounts a fresh child; only then does the child register a handler at an
upper-case path.  In the source world the mount listener made the child's
settings inherit the parent's, so the child's router comes out case
sensitive and a lower-case request misses the handler; in the world where
the event has no listeners the same request reaches it.  The two dispatch
results differ. -/
theorem claim_mount_event_dispatch_differs_counterexample :
    mountScenarioRun true ≠ mountScenarioRun false := by decide

/-- C8: every application returned by createApplication is itself a callable
handler, and invoking the application directly is the same dispatch as
invoking its handle: the closure returned by createApplication forwards its
three arguments to handle, for the freshly created application under any
middleware environment and for every application reachable at dispatch
level. -/
theorem claim_app_callable_equals_handle :
    (∀ (envF : Nat → RS → RS × MwAction) (envE : Nat → String → RS → RS × MwAction)
        (i : Nat) (path : String) (s : RS),
      appAsCallable (buildApp envF envE (createApplication i)) path s
        = appHandle (buildApp envF envE (createApplication i)) path s) ∧
    (∀ (a : DApp) (path : String) (s : RS),
      appAsCallable a path s = appHandle a path s) :=
  ⟨fun _ _ _ _ _ => rfl, fun _ _ _ => rfl⟩

/-- C9, evaluating the embedded req.get at the failing input: a request
whose header bag stores the key referer with a value has that value dropped,
req.get returning undefined for both spellings, because the source reads the
referer property off the header function instead of the header bag; the
reversed spelling stored under referrer does come back, ordinary headers are
returned from the lowercased bag, and a missing or non-string name throws a
TypeError. -/
theorem reqGet_referer_header_dropped :
    reqGet [("referer", "https://example.com/a")] (JVal.str "Referer")
      = Except.ok none ∧
    reqGet [("referer", "https://example.com/a")] (JVal.str "Referrer")
      = Except.ok none ∧
    reqGet [("referrer", "https://example.com/a")] (JVal.str "Referer")
      = Except.ok (some "https://example.com/a") ∧
    reqGet [("content-type", "text/plain")] (JVal.str "Content-Type")
      = Except.ok (some "text/plain") ∧
    reqGet [] JVal.undefined
      = Except.error (JsError.typeError "name argument is required to req.get") ∧
    reqGet [] (JVal.num 5)
      = Except.error (JsError.typeError "name must be a string to req.get") :=
  ⟨rfl, rfl, rfl, rfl, rfl, rfl⟩

/-- C10: req.param looks its sources up in the fixed precedence order the
claim states, params as an own non-nullish property first, then body, then
query, then the default, with missing bags read as empty: the embedded
function agrees with the rule written from the claim on every input, and on
a request with no bags at all every lookup yields the default. -/
theorem claim_param_precedence :
    (∀ (r : ReqBags) (n : String) (d : JVal), reqParam r n d = reqParamClaimed r n d) ∧
    (∀ (n : String) (d : JVal), reqParam ⟨none, none, none⟩ n d = d) := by
  constructor
  · intro r n d
    unfold reqParam reqParamClaimed
    cases hP : nonNullish ((r.params.getD emptyBag).get n) <;>
      cases hPo : (r.params.getD emptyBag).hasOwnProp n <;>
        cases hB : nonNullish ((r.body.getD emptyBag).get n) <;>
          cases hQ : nonNullish ((r.query.getD emptyBag).get n) <;>
            simp [hP, hPo, hB, hQ]
  · intro n d
    rfl
